import Mathlib

set_option linter.unusedVariables false

/- Verification development for the saggitarius dependency-injection
resolution engine (src/definition.ts, src/api.ts and the library part of
src/test.ts).  The TypeScript data model and algorithms are shallowly
embedded: objects live in an explicit heap keyed by numeric identities
(object identity in JavaScript), type tokens and their hashes are numbers,
and the cooperative asynchronous execution is run by a fuel-indexed
sequential interpreter.  Future (from the saggitarius future package) is
modelled as a settable cell: awaiting a settled cell yields its value, while
awaiting a cell that is still unset is the outcome `hung`, because in the
sequential schedules examined here an unset cell at await time could only be
settled by the awaiting computation itself, so the await never completes. -/

/-- Values produced by resolution: the undefined value, literal payloads,
constructed instances (identified by allocation number), arrays and
records. -/
inductive Val where
  | undef : Val
  | lit : Nat → Val
  | inst : Nat → Val
  | arr : List Val → Val
  | record : List (String × Val) → Val

/-- A Dependency (api.ts): either a type token reference or a pointer to a
Definition object. -/
inductive Dep where
  | tok : Nat → Dep
  | ref : Nat → Dep
deriving DecidableEq, Repr

/-- Definition.Kind from definition.ts. -/
inductive DefKind where
  | value | array | record | type | reference
deriving DecidableEq, BEq, Repr

/-- The factory function stored on a Type definition: a constructor factory
producing a fresh instance, or a factory that throws the given error
payload. -/
inductive FactorySpec where
  | construct : FactorySpec
  | failWith : Nat → FactorySpec
deriving DecidableEq, Repr

/-- A Definition object (definition.ts): the tagged union is flattened into
one record, since a JavaScript object literal carries whichever fields its
kind uses.  Record definitions store their keyed elements in the field
`fields` (the source reuses the name elements for both Array and Record).
`resolvedSym` is the non-enumerable ResolvedSymbol property attached by
DefinitionResolver: it holds the identity of the cached resolved copy. -/
structure DefObj where
  kind : DefKind
  value : Val := .undef
  elements : Option (List (Option Dep)) := none
  fields : Option (List (String × Option Dep)) := none
  type : Nat := 0
  shared : Option Bool := none
  factory : Option FactorySpec := none
  args : Option (List (Option Dep)) := none
  props : Option (List (String × Option Dep)) := none
  target : Nat := 0
  resolvedSym : Option Nat := none

/-- Errors raised by the engine, mirroring the thrown Error values:
"Cyclic dependency", "Invalid definition", "Factory is not defined", and an
exception thrown by a factory. -/
inductive Err where
  | cyclic : Err
  | invalidDefinition : Err
  | missingFactory : Err
  | thrown : Nat → Err
deriving DecidableEq, Repr

/-- Outcome of awaiting a top-level resolution: a settled value, a
rejection, a promise that never settles (`hung`), or interpreter fuel
exhaustion (`timeout`, asserted by no theorem). -/
inductive Out where
  | ok : Val → Out
  | err : Err → Out
  | hung : Out
  | timeout : Out

/-- Observable scheduling events of ObjectFactory.create: the start of the
resolution of the args dependency, the invocation of the factory, and the
start of the resolution of the props dependency. -/
inductive Ev where
  | argsStart : Nat → Ev
  | invokeFactory : Nat → Ev
  | propsStart : Nat → Ev
deriving DecidableEq, BEq, Repr

/-- DiContext from the library source: cycle-detection stack (definition
identities), shared flag, per-call memoization registry (type-token hash to
future identity), and the future of the object currently under construction
(the source field instance). -/
structure DiContext where
  stack : List Nat
  shared : Bool
  registry : List (Nat × Nat)
  inst : Option Nat

/-- Engine state: definition heap, definition registry (type token to
definition identity), process-wide instance registry (the WeakMap keyed by
definition identity), future cells, allocation counters, the registered
resolver plugins, and observation logs (plugin invocations, factory
invocations, scheduling events). -/
structure St where
  heap : List (Nat × DefObj)
  nextId : Nat
  defRegistry : List (Nat × Nat)
  instRegistry : List (Nat × Nat)
  futures : List (Nat × Option Val)
  nextFut : Nat
  nextInst : Nat
  resolvers : List Nat
  pluginLog : List (Nat × Nat)
  factoryLog : List Nat
  events : List Ev

/-- Association-list lookup by numeric key (first match wins, as for map and
plain-object lookups in the source). -/
def lookupA {β : Type} : List (Nat × β) → Nat → Option β
  | [], _ => none
  | (k, v) :: rest, k' => if k' = k then some v else lookupA rest k'

/-- Association-list update by numeric key. -/
def setA {β : Type} : List (Nat × β) → Nat → β → List (Nat × β)
  | [], k, v => [(k, v)]
  | (k', v') :: rest, k, v =>
    if k = k' then (k, v) :: rest else (k', v') :: setA rest k v

/-- Default definition object used for ill-formed heap accesses; no
reachable state in this development dereferences a missing identity. -/
def DefObj.dflt : DefObj := { kind := .value }

def heapGet (s : St) (d : Nat) : DefObj := (lookupA s.heap d).getD DefObj.dflt

def heapSet (s : St) (d : Nat) (o : DefObj) : St := { s with heap := setA s.heap d o }

def futCellSet (s : St) (f : Nat) (v : Val) : St :=
  { s with futures := setA s.futures f (some v) }

/-- Awaiting a Future cell: a settled cell yields its value; an unset cell
never settles in the sequential schedules modelled here. -/
def awaitFut (s : St) (f : Nat) : Out :=
  match lookupA s.futures f with
  | some (some v) => .ok v
  | _ => .hung

/-- DependencyProvider.isShared: true exactly for Type definitions whose
shared field is absent or true. -/
def isShared (d : DefObj) : Bool :=
  d.kind == .type && d.shared.getD true

/-- DependencyProvider.hashOf as invoked on a resolver output (always a
definition object): Type definitions hash to the hash of their type token,
every other kind yields no hash. -/
def hashOf (d : DefObj) : Option Nat :=
  if d.kind == .type then some d.type else none

/-- DependencyProvider.forkContext: a definition already on the stack raises
the cyclic-dependency error (modelled by none); otherwise the fork carries
the stack with the definition appended, the shared flag recomputed from the
definition alone, the parent registry entries spread into a fresh object,
and no instance future. -/
def forkContext (ctx : DiContext) (dId : Nat) (d : DefObj) : Option DiContext :=
  if ctx.stack.contains dId then none
  else some { stack := ctx.stack ++ [dId], shared := isShared d,
              registry := ctx.registry, inst := none }

/-- DefinitionResolver.getDefinition: a definition object passes through; a
type token is looked up in the definition registry, lazily creating and
registering a Type placeholder definition when absent. -/
def getDefinitionR (s : St) (dep : Dep) : Nat × St :=
  match dep with
  | .ref d => (d, s)
  | .tok t =>
    match lookupA s.defRegistry t with
    | some d => (d, s)
    | none =>
      let d := s.nextId
      let obj : DefObj := { kind := .type, type := t }
      (d, { s with heap := (d, obj) :: s.heap,
                   nextId := s.nextId + 1,
                   defRegistry := (t, d) :: s.defRegistry })

/-- The while loop of DefinitionResolver.resolve: follow Reference
definitions, collecting each visited Reference, stopping early when the
followed definition already carries a cached resolution.  Fuel exhaustion
(none) corresponds to a Reference chain that never reaches a terminal
definition, on which the source loops forever. -/
def DefinitionResolver.chase (fuel : Nat) (s : St) (d : Nat) (tags : List Nat) :
    Option (Nat × List Nat × St) :=
  match fuel with
  | 0 => none
  | fuel + 1 =>
    let obj := heapGet s d
    if obj.kind == .reference then
      let (d', s') := getDefinitionR s (.tok obj.target)
      if (heapGet s' d').resolvedSym.isSome then some (d', tags ++ [d], s')
      else DefinitionResolver.chase fuel s' d' (tags ++ [d])
    else some (d, tags, s)

/-- DefinitionResolver.resolve: follow Reference definitions; if the
terminal definition has no cached resolution, shallow-copy it (the
non-enumerable cache property is not copied), run every registered resolver
plugin over the copy in order, and attach the copy as the write-once cache;
propagate the cache onto every visited Reference that does not already carry
one (redefining an existing non-configurable cache with the same value is a
no-op); return the cache identity.  Resolver plugins are modelled as opaque
observers whose invocations are logged: the claims under verification
depend only on how often they run. -/
def DefinitionResolver.resolve (fuel : Nat) (dep : Dep) (s : St) : Option Nat × St :=
  let (d0, s0) := getDefinitionR s dep
  match DefinitionResolver.chase fuel s0 d0 [] with
  | none => (none, s0)
  | some (d, tags, s1) =>
    let obj := heapGet s1 d
    let s2 :=
      if obj.resolvedSym.isSome then s1
      else
        let rid := s1.nextId
        let robj := { obj with resolvedSym := none }
        let sA := { s1 with heap := (rid, robj) :: s1.heap,
                            nextId := s1.nextId + 1,
                            pluginLog := s1.pluginLog ++ s1.resolvers.map (fun p => (p, d)) }
        heapSet sA d { obj with resolvedSym := some rid }
    let cache := (heapGet s2 d).resolvedSym.getD 0
    let s3 := tags.foldl
      (fun sAcc t =>
        let tObj := heapGet sAcc t
        if tObj.resolvedSym.isSome then sAcc
        else heapSet sAcc t { tObj with resolvedSym := some cache }) s2
    (some cache, s3)

/-- Requests processed by the engine.  The mutual recursion between
DependencyProvider.get, DependencyProvider.getDependency, getArray,
getRecord, ObjectProvider.get and ObjectFactory.create (with its getArgs and
getProps) is expressed as one fuel-indexed step function over this request
type, so that evaluation is structural and reduces inside the kernel. -/
inductive Req where
  | get : DiContext → Option Dep → Req
  | getDependency : DiContext → Nat → Req
  | getElems : DiContext → List (Option Dep) → Req
  | getFields : DiContext → List (String × Option Dep) → Req
  | provide : DiContext → Nat → Req
  | create : DiContext → Nat → Req

/-- One engine computation.  Each alternative is a direct transcription of
the corresponding source method; comments name the method transcribed. -/
def step (fuel : Nat) (r : Req) (s : St) : Out × St :=
  match fuel with
  | 0 => (.timeout, s)
  | fuel + 1 =>
    match r with
    | .get ctx dep =>
      -- DependencyProvider.get: an undefined dependency yields undefined;
      -- otherwise resolve the definition, compute the memoization hash, and
      -- when the current context registry already holds a future under that
      -- hash return (and thereby await) it; otherwise dispatch.
      match dep with
      | none => (.ok .undef, s)
      | some dp =>
        match DefinitionResolver.resolve fuel dp s with
        | (none, s1) => (.timeout, s1)
        | (some d, s1) =>
          match hashOf (heapGet s1 d) with
          | some h =>
            match lookupA ctx.registry h with
            | some f => (awaitFut s1 f, s1)
            | none => step fuel (.getDependency ctx d) s1
          | none => step fuel (.getDependency ctx d) s1
    | .getDependency ctx d =>
      -- DependencyProvider.getDependency: fork the context (cycle check,
      -- shared-flag recomputation, registry copy), then dispatch on the
      -- definition kind; a kind outside the switch is "Invalid definition".
      let obj := heapGet s d
      match forkContext ctx d obj with
      | none => (.err .cyclic, s)
      | some ctx' =>
        match obj.kind with
        | .value => (.ok obj.value, s)
        | .array => step fuel (.getElems ctx' (obj.elements.getD [])) s
        | .record => step fuel (.getFields ctx' (obj.fields.getD [])) s
        | .type =>
          -- DependencyProvider.getType: shared contexts go through the
          -- object provider, non-shared ones directly to the factory.
          if ctx'.shared then step fuel (.provide ctx' d) s
          else step fuel (.create ctx' d) s
        | .reference => (.err .invalidDefinition, s)
    | .getElems ctx es =>
      -- DependencyProvider.getArray: every element through get, results
      -- written at their own index.  The fan-out of Promise.all is run in
      -- declaration order here; completion-order independence of the
      -- index-addressed writes is the subject of fillSlots below.
      match es with
      | [] => (.ok (.arr []), s)
      | e :: rest =>
        match step fuel (.get ctx e) s with
        | (.ok v, s1) =>
          match step fuel (.getElems ctx rest) s1 with
          | (.ok (.arr vs), s2) => (.ok (.arr (v :: vs)), s2)
          | other => other
        | other => other
    | .getFields ctx fs =>
      -- DependencyProvider.getRecord: like getArray, keyed by field name.
      match fs with
      | [] => (.ok (.record []), s)
      | (k, e) :: rest =>
        match step fuel (.get ctx e) s with
        | (.ok v, s1) =>
          match step fuel (.getFields ctx rest) s1 with
          | (.ok (.record vs), s2) => (.ok (.record ((k, v) :: vs)), s2)
          | other => other
        | other => other
    | .provide ctx d =>
      -- ObjectProvider.get: a per-call registry hit awaits that future; a
      -- process-registry hit returns (and thereby awaits) the stored
      -- future; otherwise create a pending future, store it in the process
      -- registry, the per-call registry and ctx.instance, and delegate to
      -- ObjectFactory.create.
      let obj := heapGet s d
      let h := obj.type
      match lookupA ctx.registry h with
      | some f => (awaitFut s f, s)
      | none =>
        match lookupA s.instRegistry d with
        | some f => (awaitFut s f, s)
        | none =>
          let f := s.nextFut
          let s1 := { s with futures := (f, none) :: s.futures,
                             nextFut := s.nextFut + 1,
                             instRegistry := (d, f) :: s.instRegistry }
          let ctx' := { ctx with inst := some f, registry := (h, f) :: ctx.registry }
          step fuel (.create ctx' d) s1
    | .create ctx d =>
      -- ObjectFactory.create: a definition without factory fails; the args
      -- dependency resolves as a freshly built Array definition before the
      -- factory is invoked; the produced instance settles ctx.instance; the
      -- props dependency resolves as a freshly built Record definition only
      -- after construction, and the properties are then assigned.
      let obj := heapGet s d
      match obj.factory with
      | none => (.err .missingFactory, s)
      | some fac =>
        let argsRes :=
          match obj.args with
          | none => (Out.ok (.arr []), s)
          | some as =>
            let aId := s.nextId
            let sA := { s with heap := (aId, ({ kind := .array, elements := some as } : DefObj)) :: s.heap,
                               nextId := s.nextId + 1,
                               events := s.events ++ [Ev.argsStart d] }
            step fuel (.get ctx (some (.ref aId))) sA
        match argsRes with
        | (.ok _, s1) =>
          let s2 := { s1 with events := s1.events ++ [Ev.invokeFactory d],
                              factoryLog := s1.factoryLog ++ [d] }
          match fac with
          | .failWith e => (.err (.thrown e), s2)
          | .construct =>
            let i := s2.nextInst
            let s3 := { s2 with nextInst := s2.nextInst + 1 }
            let s4 :=
              match ctx.inst with
              | some f => futCellSet s3 f (.inst i)
              | none => s3
            match obj.props with
            | none => (.ok (.inst i), s4)
            | some ps =>
              let pId := s4.nextId
              let s5 := { s4 with heap := (pId, ({ kind := .record, fields := some ps } : DefObj)) :: s4.heap,
                                  nextId := s4.nextId + 1,
                                  events := s4.events ++ [Ev.propsStart d] }
              match step fuel (.get ctx (some (.ref pId))) s5 with
              | (.ok _, s6) => (.ok (.inst i), s6)
              | other => other
        | other => other

/-- DependencyProvider.get, the public dispatch entry point. -/
def DependencyProvider.get (fuel : Nat) (ctx : DiContext) (dep : Option Dep) (s : St) : Out × St :=
  step fuel (.get ctx dep) s

/-- DependencyManager.get: a fresh top-level context with an empty stack and
shared set to true (the source leaves the registry absent, observationally
identical to empty here). -/
def DependencyManager.get (fuel : Nat) (dep : Dep) (s : St) : Out × St :=
  DependencyProvider.get fuel { stack := [], shared := true, registry := [], inst := none } (some dep) s

/-- DependencyManager.create: like get but the root context carries shared
set to false; the parameters record is stored on the context and never read
by the engine, so it is omitted from the model. -/
def DependencyManager.create (fuel : Nat) (dep : Dep) (s : St) : Out × St :=
  DependencyProvider.get fuel { stack := [], shared := false, registry := [], inst := none } (some dep) s

/-- Fuel large enough for every scenario in this development; every theorem
asserts an outcome other than timeout, which forces adequacy. -/
def FUEL : Nat := 64

/-- Registry-store refinement of forkContext, making the object identity of
the per-call registry explicit: registry objects live in a store keyed by
identity, a context holds the identity of its registry object, and the
source expression spreading the parent registry allocates a fresh object
holding a copy of the parent entries. -/
structure RegStore where
  regs : List (Nat × List (Nat × Nat))
  next : Nat

/-- A context in the registry-store refinement. -/
structure CtxR where
  stack : List Nat
  shared : Bool
  reg : Nat

/-- forkContext over the registry store: cycle check, stack append, shared
recomputation, and allocation of a fresh registry object initialised with
the parent entries. -/
def forkContextR (st : RegStore) (ctx : CtxR) (dId : Nat) (d : DefObj) :
    Option (CtxR × RegStore) :=
  if ctx.stack.contains dId then none
  else
    some ({ stack := ctx.stack ++ [dId], shared := isShared d, reg := st.next },
          { regs := (st.next, (lookupA st.regs ctx.reg).getD []) :: st.regs,
            next := st.next + 1 })

/-- Store-level helper for regWrite: prepend the entry to every registry
object named r. -/
def regWriteList : List (Nat × List (Nat × Nat)) → Nat → Nat → Nat → List (Nat × List (Nat × Nat))
  | [], _, _, _ => []
  | (k, m) :: rest, r, h, f =>
    if k = r then (k, (h, f) :: m) :: regWriteList rest r h f
    else (k, m) :: regWriteList rest r h f

/-- The write of a future under a hash into the registry object named r (the
assignment performed by ObjectProvider.get on ctx.registry). -/
def regWrite (st : RegStore) (r h f : Nat) : RegStore :=
  { st with regs := regWriteList st.regs r h f }

/-- Reading a future under a hash through the registry object named r. -/
def regLookup (st : RegStore) (r h : Nat) : Option Nat :=
  (lookupA st.regs r).bind (fun m => lookupA m h)

/-- One index-addressed write of an element result, as performed by the
getArray and getRecord callbacks. -/
def writeSlot (f : Nat → Option Val) (i : Nat) (v : Val) : Nat → Option Val :=
  fun j => if j = i then some v else f j

/-- The assembly performed by the Promise.all fan-out of getArray: each
element writes its result at its own index, in an arbitrary completion
order given by the list of indices. -/
def fillSlots (res : Nat → Val) : List Nat → (Nat → Option Val) → Nat → Option Val
  | [], f => f
  | i :: rest, f => fillSlots res rest (writeSlot f i (res i))

/-- Event a occurs (first occurrence) strictly before event b in a log. -/
def precedes (l : List Ev) (a b : Ev) : Prop :=
  l.findIdx (· == a) < l.findIdx (· == b)

instance precedesDecidable (l : List Ev) (a b : Ev) : Decidable (precedes l a b) :=
  Nat.decLt _ _

/-- Initial engine state from a definition heap, a definition registry, the
next free identity and the registered resolver plugins. -/
def mkSt (heap : List (Nat × DefObj)) (reg : List (Nat × Nat)) (nid : Nat)
    (ps : List Nat) : St :=
  { heap := heap, nextId := nid, defRegistry := reg, instRegistry := [],
    futures := [], nextFut := 0, nextInst := 0, resolvers := ps,
    pluginLog := [], factoryLog := [], events := [] }

/-- Scenario: token 1 bound as a Type definition with a constructor factory
and default sharing (toClass with no shared call). -/
def sShared : St :=
  mkSt [(1, { kind := .type, type := 1, factory := some .construct })] [(1, 1)] 2 []

/-- The engine state after one top-level get of token 1 from sShared. -/
def sShared1 : St := (DependencyManager.get FUEL (.tok 1) sShared).2

/-- Scenario: token 1 bound as a Type definition with shared set to false. -/
def sNonShared : St :=
  mkSt [(1, { kind := .type, type := 1, shared := some false, factory := some .construct })]
    [(1, 1)] 2 []

/-- Scenario: token 9 bound to an Array definition requesting token 1 twice,
token 1 a shared Type definition: duplicate requests inside one top-level
call. -/
def sArrDup : St :=
  mkSt [(1, { kind := .type, type := 1, factory := some .construct }),
        (2, { kind := .array, elements := some [some (.tok 1), some (.tok 1)] })]
    [(1, 1), (9, 2)] 3 []

/-- Scenario: tokens 1 and 2 bound to mutually dependent Type definitions
with default sharing. -/
def sCycleShared : St :=
  mkSt [(1, { kind := .type, type := 1, factory := some .construct, args := some [some (.tok 2)] }),
        (2, { kind := .type, type := 2, factory := some .construct, args := some [some (.tok 1)] })]
    [(1, 1), (2, 2)] 3 []

/-- Scenario: tokens 1 and 2 bound to mutually dependent Type definitions
with shared set to false on both. -/
def sCycleNon : St :=
  mkSt [(1, { kind := .type, type := 1, shared := some false, factory := some .construct,
              args := some [some (.tok 2)] }),
        (2, { kind := .type, type := 2, shared := some false, factory := some .construct,
              args := some [some (.tok 1)] })]
    [(1, 1), (2, 2)] 3 []

/-- Scenario: token 1 bound to a shared Type definition whose factory throws
the payload e. -/
def sFail (e : Nat) : St :=
  mkSt [(1, { kind := .type, type := 1, factory := some (.failWith e) })] [(1, 1)] 2 []

/-- Scenario: a definition whose cached resolution points at a
Reference-kind object, modelling a corrupted definition reaching the
dispatch switch default branch. -/
def sInvalid : St :=
  mkSt [(1, { kind := .type, type := 1, resolvedSym := some 2 }),
        (2, { kind := .reference, target := 1 })] [(1, 1)] 3 []

/-- Scenario for reference chasing: token 1 is a Reference to token 2, token
2 a Reference to token 3, token 3 a Type definition; one registered resolver
plugin (11). -/
def sChain : St :=
  mkSt [(1, { kind := .reference, target := 2 }),
        (2, { kind := .reference, target := 3 }),
        (3, { kind := .type, type := 3, factory := some .construct })]
    [(1, 1), (2, 2), (3, 3)] 4 [11]

/-- Scenario: token 1 bound to a Type definition with both an argument and a
property, each an inline Value definition. -/
def sProps : St :=
  mkSt [(1, { kind := .type, type := 1, factory := some .construct,
              args := some [some (.ref 2)], props := some [("p", some (.ref 3))] }),
        (2, { kind := .value, value := .lit 5 }),
        (3, { kind := .value, value := .lit 6 })]
    [(1, 1)] 4 []

/-- Scenario: token 9 bound to an Array definition with a hole at index 1. -/
def sHoles : St :=
  mkSt [(1, { kind := .array, elements := some [some (.ref 2), none, some (.ref 3)] }),
        (2, { kind := .value, value := .lit 5 }),
        (3, { kind := .value, value := .lit 6 })]
    [(9, 1)] 4 []

/-- A sequence of n independent top-level DependencyManager.get calls for
token 1, threading the process-wide state. -/
def runN : Nat → St → List Out × St
  | 0, s => ([], s)
  | n + 1, s =>
    ((DependencyManager.get FUEL (.tok 1) s).1
       :: (runN n (DependencyManager.get FUEL (.tok 1) s).2).1,
     (runN n (DependencyManager.get FUEL (.tok 1) s).2).2)

/-- Scenario: token 1 depends on token 2, whose factory throws e: an error
deep in the graph. -/
def sNested (e : Nat) : St :=
  mkSt [(1, { kind := .type, type := 1, factory := some .construct, args := some [some (.tok 2)] }),
        (2, { kind := .type, type := 2, factory := some (.failWith e) })]
    [(1, 1), (2, 2)] 3 []


/-- Two structurally identical Type definition objects at identities 1 and
2, with ps the registered resolver plugins. -/
def sTwin (t : Nat) (sh : Option Bool) (fac : Option FactorySpec)
    (ar : Option (List (Option Dep))) (pr : Option (List (String × Option Dep)))
    (ps : List Nat) : St :=
  mkSt [(1, { kind := .type, type := t, shared := sh, factory := fac, args := ar, props := pr }),
        (2, { kind := .type, type := t, shared := sh, factory := fac, args := ar, props := pr })]
    [] 3 ps

/-- The state after resolving the first of the two twin definitions. -/
def sTwin1 (t : Nat) (sh : Option Bool) (fac : Option FactorySpec)
    (ar : Option (List (Option Dep))) (pr : Option (List (String × Option Dep)))
    (ps : List Nat) : St :=
  (DefinitionResolver.resolve FUEL (.ref 1) (sTwin t sh fac ar pr ps)).2

/-- The first top-level get of token 1 from sShared constructs instance 0
and leaves state sShared1. -/
theorem get_sShared_eq :
    DependencyManager.get FUEL (.tok 1) sShared = (.ok (.inst 0), sShared1) := rfl

/-- sShared1 is a fixed point of further top-level gets: the result is the
memoized instance and the state is unchanged. -/
theorem get_sShared1_fix :
    DependencyManager.get FUEL (.tok 1) sShared1 = (.ok (.inst 0), sShared1) := rfl

/-- Any number of further top-level gets from sShared1 keep returning the
memoized instance with the state unchanged. -/
theorem runN_sShared1 (n : Nat) :
    runN n sShared1 = (List.replicate n (Out.ok (Val.inst 0)), sShared1) := by
  induction n with
  | zero => rfl
  | succ k ih => simp [runN, get_sShared1_fix, ih, List.replicate_succ]

/-- A write into the registry object named n is invisible through any other
registry name r. -/
theorem lookupA_regWriteList_ne (n h f r : Nat) (hrn : r ≠ n) :
    ∀ l, lookupA (regWriteList l n h f) r = lookupA l r := by
  intro l
  induction l with
  | nil => rfl
  | cons kv rest ih =>
    rcases kv with ⟨k, m⟩
    by_cases hk : k = n
    · simp [regWriteList, lookupA, hk, hrn, ih]
    · by_cases hrk : r = k
      · simp [regWriteList, lookupA, hk, hrk]
      · simp [regWriteList, lookupA, hk, hrk, ih]

/-- Positions outside a write list are untouched by fillSlots. -/
theorem fillSlots_not_mem (res : Nat → Val) :
    ∀ (order : List Nat) (f : Nat → Option Val) (j : Nat),
      j ∉ order → fillSlots res order f j = f j := by
  intro order
  induction order with
  | nil => intro f j _; rfl
  | cons i rest ih =>
    intro f j hj
    have hji : j ≠ i := fun h => hj (by simp [h])
    have hjr : j ∉ rest := fun h => hj (List.mem_cons_of_mem _ h)
    simp [fillSlots, ih _ _ hjr, writeSlot, hji]

/-- A position written exactly once by fillSlots holds its element's
result. -/
theorem fillSlots_mem (res : Nat → Val) :
    ∀ (order : List Nat) (f : Nat → Option Val) (j : Nat),
      order.Nodup → j ∈ order → fillSlots res order f j = some (res j) := by
  intro order
  induction order with
  | nil => intro f j _ hj; cases hj
  | cons i rest ih =>
    intro f j hnd hj
    by_cases hjr : j ∈ rest
    · exact ih _ _ (List.Nodup.of_cons hnd) hjr
    · have hji : j = i := by
        rcases List.mem_cons.mp hj with h | h
        · exact h
        · exact absurd h hjr
      subst hji
      simp [fillSlots, fillSlots_not_mem res rest _ _ hjr, writeSlot]

/-- C1: the claim states that for a Type definition whose shared field is
absent or true, DependencyManager.create returns a freshly constructed
instance because its root context resolves with shared = false.  On the
code, forkContext recomputes the shared flag from the definition alone,
discarding the root context's flag, so create routes through ObjectProvider
and returns the previously memoized shared instance without invoking the
factory: after one get (factory log holds the single entry 2, the resolved
definition), create returns the same instance 0 and the log is unchanged;
a second create after a first create likewise returns the first create's
instance; and forking create's root context for the resolved definition
yields shared = true. -/
theorem C1_create_returns_memoized_shared_instance :
    (DependencyManager.get FUEL (.tok 1) sShared).1 = .ok (.inst 0) ∧
    (DependencyManager.create FUEL (.tok 1) sShared1).1 = .ok (.inst 0) ∧
    (DependencyManager.create FUEL (.tok 1) sShared1).2.factoryLog = [2] ∧
    (DependencyManager.create FUEL (.tok 1)
      (DependencyManager.create FUEL (.tok 1) sShared).2).1 = .ok (.inst 0) ∧
    (DependencyManager.create FUEL (.tok 1)
      (DependencyManager.create FUEL (.tok 1) sShared).2).2.factoryLog = [2] ∧
    (forkContext { stack := [], shared := false, registry := [], inst := none } 2
      (heapGet sShared1 2)).map DiContext.shared = some true :=
  ⟨rfl, rfl, rfl, rfl, rfl, rfl⟩

/-- C2 counterexample: the claim states that a second top-level get for the
same shared type invokes the factory again.  On the code the second
top-level get returns the instance produced by the first call, with the
engine state (and hence the factory invocation log, which holds exactly one
entry) completely unchanged. -/
theorem C2_cx_second_toplevel_get_skips_factory :
    DependencyManager.get FUEL (.tok 1) sShared1 = (.ok (.inst 0), sShared1) ∧
    sShared1.factoryLog = [2] :=
  ⟨rfl, rfl⟩

/-- C2 amended: a fresh top-level get establishes a fresh per-call
sub-registry, but shared instances are memoized in the process-wide
instance registry keyed by the resolved Definition object: the second
top-level call receives the instance produced by the first from that
registry (whose future is settled with instance 0) and the factory is not
invoked again. -/
theorem C2_shared_instances_memoized_process_wide :
    (DependencyManager.get FUEL (.tok 1) sShared1).1 = .ok (.inst 0) ∧
    (DependencyManager.get FUEL (.tok 1) sShared1).2 = sShared1 ∧
    lookupA sShared1.instRegistry 2 = some 0 ∧
    lookupA sShared1.futures 0 = some (some (.inst 0)) ∧
    sShared1.factoryLog = [2] :=
  ⟨rfl, rfl, rfl, rfl, rfl⟩

/-- C3 counterexample: the claim states that a forked context shares its
parent's registry object, so a future stored by one branch is visible to
every sibling branch.  On the code the fork spreads the registry into a
fresh object: the child registry identity 1 differs from the parent's 0,
and a future stored through the first child (registry 1) is invisible both
through the sibling fork (registry 2) and through the parent (registry
0). -/
theorem C3_cx_fork_copies_registry_not_shared :
    forkContextR ⟨[(0, [])], 1⟩ ⟨[], true, 0⟩ 10 { kind := .type, type := 1 } =
      some (⟨[10], true, 1⟩, ⟨[(1, []), (0, [])], 2⟩) ∧
    (1 : Nat) ≠ 0 ∧
    forkContextR ⟨[(1, []), (0, [])], 2⟩ ⟨[], true, 0⟩ 11 { kind := .type, type := 1 } =
      some (⟨[11], true, 2⟩, ⟨[(2, []), (1, []), (0, [])], 3⟩) ∧
    regLookup (regWrite ⟨[(2, []), (1, []), (0, [])], 3⟩ 1 5 7) 1 5 = some 7 ∧
    regLookup (regWrite ⟨[(2, []), (1, []), (0, [])], 3⟩ 1 5 7) 2 5 = none ∧
    regLookup (regWrite ⟨[(2, []), (1, []), (0, [])], 3⟩ 1 5 7) 0 5 = none :=
  ⟨rfl, by decide, rfl, rfl, rfl, rfl⟩

/-- C3 amended: forking copies the registry as well as the stack: the child
context receives a freshly allocated registry object initialised with the
parent's entries at fork time, and a future stored through the child
registry after the fork is not visible through any other registry object
(in particular not through the parent or a sibling fork). -/
theorem C3_fork_allocates_registry_copy (st : RegStore) (ctx : CtxR) (dId : Nat)
    (d : DefObj) (hc : ctx.stack.contains dId = false) :
    forkContextR st ctx dId d =
      some (⟨ctx.stack ++ [dId], isShared d, st.next⟩,
            ⟨(st.next, (lookupA st.regs ctx.reg).getD []) :: st.regs, st.next + 1⟩) ∧
    (∀ h f r, r ≠ st.next →
      regLookup (regWrite ⟨(st.next, (lookupA st.regs ctx.reg).getD []) :: st.regs,
        st.next + 1⟩ st.next h f) r h = regLookup st r h) := by
  refine ⟨?_, ?_⟩
  · unfold forkContextR
    rw [if_neg (by simpa using hc)]
  · intro h f r hr
    simp [regLookup, regWrite, regWriteList, lookupA, hr,
      lookupA_regWriteList_ne st.next h f r hr]

/-- Witness for C3 amended at a concrete parent context and store. -/
theorem C3_fork_allocates_registry_copy_witness :
    ((⟨[], true, 0⟩ : CtxR).stack.contains 10 = false) ∧
    forkContextR ⟨[(0, [])], 1⟩ ⟨[], true, 0⟩ 10 { kind := .type, type := 1 } =
      some (⟨[10], true, 1⟩, ⟨[(1, []), (0, [])], 2⟩) :=
  ⟨rfl, (C3_fork_allocates_registry_copy ⟨[(0, [])], 1⟩ ⟨[], true, 0⟩ 10
    { kind := .type, type := 1 } rfl).1⟩

/-- C4: for the default-shared binding, any number n + 1 of sequential
top-level gets yields the same instance 0 every time with exactly one
factory invocation; duplicate requests inside one top-level call (an Array
definition requesting the type twice) also yield the same instance with one
invocation; for the binding with shared = false, two requests construct two
distinct instances and the factory runs twice. -/
theorem C4_shared_single_construction_nonshared_fresh :
    (∀ n, runN (n + 1) sShared = (List.replicate (n + 1) (Out.ok (Val.inst 0)), sShared1)) ∧
    sShared1.factoryLog = [2] ∧
    (DependencyManager.get FUEL (.tok 9) sArrDup).1 = .ok (.arr [.inst 0, .inst 0]) ∧
    (DependencyManager.get FUEL (.tok 9) sArrDup).2.factoryLog = [4] ∧
    (DependencyManager.get FUEL (.tok 1) sNonShared).1 = .ok (.inst 0) ∧
    (DependencyManager.get FUEL (.tok 1)
      (DependencyManager.get FUEL (.tok 1) sNonShared).2).1 = .ok (.inst 1) ∧
    (DependencyManager.get FUEL (.tok 1)
      (DependencyManager.get FUEL (.tok 1) sNonShared).2).2.factoryLog = [2, 2] ∧
    Val.inst 0 ≠ Val.inst 1 := by
  refine ⟨?_, rfl, rfl, rfl, rfl, rfl, rfl, by simp⟩
  intro n
  simp [runN, get_sShared_eq, runN_sShared1, List.replicate_succ]

/-- C5: the claim states that every cyclic definition graph fails with the
cyclic-dependency error.  With the default shared semantics the mutual
cycle never reaches the fork check: the nested request for token 1 finds
token 1's pending future in the per-branch memoization registry and awaits
it forever, so the top-level call never settles and no factory is ever
invoked; only with sharing disabled does the fork-time stack check fire and
reject the request with the cyclic-dependency error. -/
theorem C5_shared_cycle_never_settles :
    (DependencyManager.get FUEL (.tok 1) sCycleShared).1 = .hung ∧
    (DependencyManager.get FUEL (.tok 2) sCycleShared).1 = .hung ∧
    (DependencyManager.get FUEL (.tok 1) sCycleShared).2.factoryLog = [] ∧
    (DependencyManager.get FUEL (.tok 1) sCycleNon).1 = .err .cyclic ∧
    (DependencyManager.get FUEL (.tok 2) sCycleNon).1 = .err .cyclic :=
  ⟨rfl, rfl, rfl, rfl, rfl⟩

/-- C6 counterexample: the claim states that the props dependency starts
resolving before the factory is invoked.  On the code the event log of a
construction with both args and props is argsStart, then invokeFactory,
then propsStart: the props resolution does not precede the factory
invocation. -/
theorem C6_cx_props_resolved_after_factory :
    (DependencyManager.get FUEL (.tok 1) sProps).2.events =
      [.argsStart 4, .invokeFactory 4, .propsStart 4] ∧
    ¬ precedes (DependencyManager.get FUEL (.tok 1) sProps).2.events
      (.propsStart 4) (.invokeFactory 4) :=
  ⟨rfl, by decide⟩

/-- C6 amended: the args dependency is resolved before the factory is
invoked, and the props dependency is resolved only after the instance has
been constructed, after which the properties are assigned and the instance
returned. -/
theorem C6_args_before_factory_props_after :
    precedes (DependencyManager.get FUEL (.tok 1) sProps).2.events
      (.argsStart 4) (.invokeFactory 4) ∧
    precedes (DependencyManager.get FUEL (.tok 1) sProps).2.events
      (.invokeFactory 4) (.propsStart 4) ∧
    (DependencyManager.get FUEL (.tok 1) sProps).1 = .ok (.inst 0) :=
  ⟨by decide, by decide, rfl⟩

/-- C7: resolving the same Definition object (here the first of two
structurally identical Type definitions, with arbitrary token, shared flag,
factory, args, props and plugin list) twice returns the identical cached
resolution object (identity 3) both times with the state unchanged by the
second call; the registered plugins each run exactly once for it; and the
structurally identical twin at identity 2 receives its own distinct cache
(identity 4), with the plugins running once more for the twin. -/
theorem C7_resolve_idempotent_cache_per_object (t : Nat) (sh : Option Bool)
    (fac : Option FactorySpec) (ar : Option (List (Option Dep)))
    (pr : Option (List (String × Option Dep))) (ps : List Nat) :
    (DefinitionResolver.resolve FUEL (.ref 1) (sTwin t sh fac ar pr ps)).1 = some 3 ∧
    (sTwin1 t sh fac ar pr ps).pluginLog = ps.map (fun p => (p, 1)) ∧
    DefinitionResolver.resolve FUEL (.ref 1) (sTwin1 t sh fac ar pr ps) =
      (some 3, sTwin1 t sh fac ar pr ps) ∧
    (DefinitionResolver.resolve FUEL (.ref 2) (sTwin1 t sh fac ar pr ps)).1 = some 4 ∧
    (heapGet (DefinitionResolver.resolve FUEL (.ref 2) (sTwin1 t sh fac ar pr ps)).2 1).resolvedSym = some 3 ∧
    (heapGet (DefinitionResolver.resolve FUEL (.ref 2) (sTwin1 t sh fac ar pr ps)).2 2).resolvedSym = some 4 ∧
    (DefinitionResolver.resolve FUEL (.ref 2) (sTwin1 t sh fac ar pr ps)).2.pluginLog =
      ps.map (fun p => (p, 1)) ++ ps.map (fun p => (p, 2)) :=
  ⟨rfl, rfl, rfl, rfl, rfl, rfl, rfl⟩

/-- C8 counterexample: the claim states that after the first resolution of
either A or B, both A's and B's Reference objects carry C's cached
resolution.  When B (token 2) is resolved first, B's and C's objects carry
the cache (identity 4) but A's object (identity 1) carries none. -/
theorem C8_cx_resolving_B_first_leaves_A_uncached :
    (DefinitionResolver.resolve FUEL (.tok 2) sChain).1 = some 4 ∧
    (heapGet (DefinitionResolver.resolve FUEL (.tok 2) sChain).2 2).resolvedSym = some 4 ∧
    (heapGet (DefinitionResolver.resolve FUEL (.tok 2) sChain).2 3).resolvedSym = some 4 ∧
    (heapGet (DefinitionResolver.resolve FUEL (.tok 2) sChain).2 1).resolvedSym = none :=
  ⟨rfl, rfl, rfl, rfl⟩

/-- C8 amended: resolving A or B returns C's resolved data (cache identity
4) and the plugins run once, on C's terminal definition.  Resolving A
traverses both references and attaches the same cache to A's, B's and C's
objects, after which further resolutions of A or B return the same cache
with the state unchanged (the chain short-circuits).  Resolving only B
caches on B's and C's objects, and A's object receives the same cache when
A is first resolved, with no further plugin invocation. -/
theorem C8_reference_chain_resolution_caching :
    (DefinitionResolver.resolve FUEL (.tok 1) sChain).1 = some 4 ∧
    (heapGet (DefinitionResolver.resolve FUEL (.tok 1) sChain).2 1).resolvedSym = some 4 ∧
    (heapGet (DefinitionResolver.resolve FUEL (.tok 1) sChain).2 2).resolvedSym = some 4 ∧
    (heapGet (DefinitionResolver.resolve FUEL (.tok 1) sChain).2 3).resolvedSym = some 4 ∧
    (DefinitionResolver.resolve FUEL (.tok 1) sChain).2.pluginLog = [(11, 3)] ∧
    DefinitionResolver.resolve FUEL (.tok 2) (DefinitionResolver.resolve FUEL (.tok 1) sChain).2 =
      (some 4, (DefinitionResolver.resolve FUEL (.tok 1) sChain).2) ∧
    DefinitionResolver.resolve FUEL (.tok 1) (DefinitionResolver.resolve FUEL (.tok 1) sChain).2 =
      (some 4, (DefinitionResolver.resolve FUEL (.tok 1) sChain).2) ∧
    (DefinitionResolver.resolve FUEL (.tok 2) sChain).1 = some 4 ∧
    (DefinitionResolver.resolve FUEL (.tok 1) (DefinitionResolver.resolve FUEL (.tok 2) sChain).2).1 = some 4 ∧
    (heapGet (DefinitionResolver.resolve FUEL (.tok 1)
      (DefinitionResolver.resolve FUEL (.tok 2) sChain).2).2 1).resolvedSym = some 4 ∧
    (DefinitionResolver.resolve FUEL (.tok 1)
      (DefinitionResolver.resolve FUEL (.tok 2) sChain).2).2.pluginLog = [(11, 3)] :=
  ⟨rfl, rfl, rfl, rfl, rfl, rfl, rfl, rfl, rfl, rfl, rfl⟩

/-- C9 counterexample: the claim states that every call rejects with the
error, including a call that joined a shared construction whose factory
fails.  On the code the first call rejects with the thrown error, but the
shared future stored in the process registry is never settled or rejected,
so a second call that joins it never settles. -/
theorem C9_cx_joining_failed_construction_never_settles :
    (DependencyManager.get FUEL (.tok 1) (sFail 7)).1 = .err (.thrown 7) ∧
    (DependencyManager.get FUEL (.tok 1)
      (DependencyManager.get FUEL (.tok 1) (sFail 7)).2).1 = .hung :=
  ⟨rfl, rfl⟩

set_option maxHeartbeats 1000000 in
/-- C9 amended: every error raised in the resolution of the graph — a
factory exception (at the root, through create, or deep in the graph), a
missing factory, an invalid definition kind, or a cyclic dependency —
propagates unmodified to the top-level call that initiated the resolution;
but a call that joins a shared construction whose factory failed never
settles, because the shared future is never resolved or rejected. -/
theorem C9_errors_propagate_to_initiating_call (e : Nat) :
    (DependencyManager.get FUEL (.tok 1) (sFail e)).1 = .err (.thrown e) ∧
    (DependencyManager.create FUEL (.tok 1) (sFail e)).1 = .err (.thrown e) ∧
    (DependencyManager.get FUEL (.tok 1) (sNested e)).1 = .err (.thrown e) ∧
    (DependencyManager.get FUEL (.tok 5) (mkSt [] [] 1 [])).1 = .err .missingFactory ∧
    (DependencyManager.get FUEL (.tok 1) sInvalid).1 = .err .invalidDefinition ∧
    (DependencyManager.get FUEL (.tok 1) sCycleNon).1 = .err .cyclic ∧
    (DependencyManager.get FUEL (.tok 1)
      (DependencyManager.get FUEL (.tok 1) (sFail e)).2).1 = .hung :=
  ⟨rfl, rfl, rfl, rfl, rfl, rfl, rfl⟩

/-- C10: an Array definition resolves to the array whose entry at each index
is the resolved value of the dependency declared there, with the hole at
index 1 yielding undefined without an error; and the index-addressed
assembly of the fan-out is independent of completion order: for every
permutation of the indices, every slot ends up holding its own element's
result. -/
theorem C10_array_index_order_and_holes :
    (DependencyManager.get FUEL (.tok 9) sHoles).1 = .ok (.arr [.lit 5, .undef, .lit 6]) ∧
    (∀ (n : Nat) (order : List Nat) (res : Nat → Val) (j : Nat),
      order.Perm (List.range n) → j < n →
      fillSlots res order (fun _ => none) j = some (res j)) := by
  refine ⟨rfl, ?_⟩
  intro n order res j hperm hj
  have hnd : order.Nodup := hperm.symm.nodup (List.nodup_range n)
  have hmem : j ∈ order := hperm.mem_iff.mpr (List.mem_range.mpr hj)
  exact fillSlots_mem res order _ j hnd hmem

/-- Witness for C10 at the concrete completion order 1 then 0 over two
slots. -/
theorem C10_array_index_order_and_holes_witness :
    List.Perm [1, 0] (List.range 2) ∧ 0 < 2 ∧
    fillSlots (fun i => Val.lit i) [1, 0] (fun _ => none) 0 = some (Val.lit 0) :=
  ⟨by decide, by decide,
   C10_array_index_order_and_holes.2 2 [1, 0] (fun i => Val.lit i) 0 (by decide) (by decide)⟩
